import Mathlib

/-!
Shallow embedding of `mapbox-gl-contextmenu` (TypeScript) and proofs about it.

Conventions:
* JS object references are modelled as `Nat` ids; reference equality is `=`.
* JS numbers that the code only compares, adds and subtracts are modelled as
  `Int` (the relevant arithmetic is exact).
* DOM nodes are not modelled; a field such as `_menuEl ≠ null` becomes a
  `Bool` flag, and the `visible` CSS class becomes a `Bool`.
-/

namespace ContextMenuSpec

/-! ## JS array primitives used by the source -/

/-- JS `Array.prototype.indexOf`: index of the first occurrence of `e`,
or `-1` when `e` is absent (used by `ContextMenu.removeItem`,
`src/src/components/ContextMenu/ContextMenu.ts` line 132, and `Evented.off`,
`src/src/util/evented.ts` line 31). -/
def jsIndexOf {α : Type} [DecidableEq α] : List α → α → Int
  | [], _ => -1
  | a :: l, e =>
    if a = e then 0
    else
      let r := jsIndexOf l e
      if r = -1 then -1 else r + 1

/-- JS `Array.prototype.splice(start, 1)`: remove the element at `start`
(`start` already in range `0 ≤ start < length` at every call site we model). -/
def jsRemoveAt {α : Type} : List α → Nat → List α
  | [], _ => []
  | _ :: l, 0 => l
  | a :: l, n + 1 => a :: jsRemoveAt l n

/-- JS `Array.prototype.splice(start, 0, e)` after start-normalisation:
insert `e` before position `start` (here `start ≤ length`). -/
def jsInsertAt {α : Type} : List α → Nat → α → List α
  | l, 0, e => e :: l
  | [], _ + 1, e => [e]
  | a :: l, n + 1, e => a :: jsInsertAt l n e

/-- JS `Array.prototype.splice` start-index normalisation: a negative start
counts from the end and is clamped to `0`; a non-negative start is clamped to
the length. -/
def spliceStart (len : Nat) (index : Int) : Nat :=
  if index < 0 then ((len : Int) + index).toNat else min index.toNat len

/-! ## Menu item list operations (`ContextMenu`, ContextMenu.ts lines 110-138) -/

/-- `ContextMenu.addItem`: `this._items.push(item)`. -/
def addItem {α : Type} (items : List α) (item : α) : List α :=
  items ++ [item]

/-- `ContextMenu.insertItem`: `this._items.splice(index, 0, item)`. -/
def insertItem {α : Type} (items : List α) (index : Int) (item : α) : List α :=
  jsInsertAt items (spliceStart items.length index) item

/-- `ContextMenu.removeItem`: look the item up with `indexOf` and
`splice(index, 1)` it out when found; otherwise leave the list alone. -/
def removeItem {α : Type} [DecidableEq α] (items : List α) (item : α) : List α :=
  let index := jsIndexOf items item
  if index ≠ -1 then jsRemoveAt items index.toNat else items

/-- A client-visible mutation of the entry list. -/
inductive MenuOp (α : Type) where
  | add (item : α)
  | rem (item : α)

/-- Run a sequence of `addItem`/`removeItem` calls on an entry list. -/
def applyOps {α : Type} [DecidableEq α] : List (MenuOp α) → List α → List α
  | [], l => l
  | .add e :: ops, l => applyOps ops (addItem l e)
  | .rem e :: ops, l => applyOps ops (removeItem l e)

/-- The sequence of added entries, in insertion order. -/
def addsOf {α : Type} : List (MenuOp α) → List α
  | [] => []
  | .add e :: ops => e :: addsOf ops
  | .rem _ :: ops => addsOf ops

/-! ## `Evented` (src/src/util/evented.ts)

Handlers are identified by `Nat` ids (JS function references). The JS handler
table distinguishes an absent key from an empty array, but every read
(`fire`, `off`, `listens`) treats the two identically, so the table is
modelled as a total function from event type to handler list. -/

structure Evented where
  eventHandlers : String → List Nat

/-- `Evented.on`: push the handler onto the list for `type`. -/
def eventedOn (st : Evented) (type : String) (handler : Nat) : Evented :=
  ⟨fun t => if t = type then st.eventHandlers type ++ [handler] else st.eventHandlers t⟩

/-- `Evented.off`: `indexOf` then `splice(index, 1)` when found. -/
def eventedOff (st : Evented) (type : String) (handler : Nat) : Evented :=
  let handlers := st.eventHandlers type
  let index := jsIndexOf handlers handler
  if index ≠ -1 then
    ⟨fun t => if t = type then jsRemoveAt handlers index.toNat else st.eventHandlers t⟩
  else st

/-- `Evented.fire`: iterate over `handlers.slice()` — a copy taken before the
loop — calling each handler on the evolving state. `interp` gives the semantic
action of a handler id (a handler may call `on`/`off` on the same instance).
Returns the final state and the list of invoked handler ids, in call order. -/
def eventedFire (st : Evented) (interp : Nat → Evented → Evented) (type : String) :
    Evented × List Nat :=
  let snapshot := st.eventHandlers type
  (snapshot.foldl (fun s h => interp h s) st, snapshot)

/-- `Evented.listens`: some handler is registered for `type`. -/
def eventedListens (st : Evented) (type : String) : Bool :=
  !(st.eventHandlers type).isEmpty

/-! ## The positioner (`ContextMenu._positionInViewport`, ContextMenu.ts
lines 470-502): clamp the desired top-left `(x, y)` of a popup of measured
size `(menuWidth, menuHeight)` into a container of size
`(containerWidth, containerHeight)`. -/

def positionInViewport (containerWidth containerHeight menuWidth menuHeight x y : Int) :
    Int × Int :=
  let left := x
  let top := y
  let left := if left + menuWidth > containerWidth then containerWidth - menuWidth else left
  let top := if top + menuHeight > containerHeight then containerHeight - menuHeight else top
  let left := if left < 0 then 0 else left
  let top := if top < 0 then 0 else top
  (left, top)

/-! ## Entries

The code inspects an entry only one level deep (`instanceof ContextMenuSubmenu`,
`disabled`, the `Focusable` capability, `listens("click")`), so a child entry of
a submenu records its variant and those flags. -/

inductive ChildEntry where
  | actionItem (disabled : Bool) (listensClick : Bool)
  | separator
  | label
  | submenu (disabled : Bool)
deriving DecidableEq

/-- `item instanceof ContextMenuSubmenu` for a child entry. -/
def isSubmenuChild : ChildEntry → Bool
  | .submenu _ => true
  | _ => false

/-- Modelled from the spec: `isFocusable` from `src/util/focusable.ts`, which is
absent from the repository snapshot (only its importer
`src/src/components/ContextMenu/ContextMenu.ts` is present). Spec §3/§4.3 and
the `Focusable` interface of `src/src/types.ts`: ActionItems and Submenus carry
the focus/blur capability; Separators and Labels are non-focusable. -/
def isFocusableChild : ChildEntry → Bool
  | .actionItem _ _ => true
  | .submenu _ => true
  | _ => false

/-- The `disabled` flag of a child entry (`false` for variants without one). -/
def childDisabled : ChildEntry → Bool
  | .actionItem d _ => d
  | .submenu d => d
  | _ => false

/-- `ContextMenu._isFocusable`: `isFocusable(item) && !item.disabled`
(ContextMenu.ts lines 348-352). -/
def childFocusable (e : ChildEntry) : Bool :=
  isFocusableChild e && !childDisabled e

/-! ## Focus index search

`_handleKeydown`'s `while` loops. `searchDown` walks the index upward from
`n` until it finds an entry satisfying `focusable` or runs past the end
(the loop exits with the index equal to the length); the fuel
`items.length - n` counts the remaining loop iterations exactly. -/

def searchDownAux {α : Type} (focusable : α → Bool) (items : List α) :
    Nat → Nat → Int
  | 0, n => (n : Int)
  | fuel + 1, n =>
    match items[n]? with
    | some e => if focusable e then (n : Int) else searchDownAux focusable items fuel (n + 1)
    | none => (n : Int)

/-- First index `≥ n` whose entry is `focusable`, as the `ArrowDown` loop
computes it; `items.length` (or `n` itself when `n` is already past the end)
when there is none. -/
def searchDown {α : Type} (focusable : α → Bool) (items : List α) (n : Nat) : Int :=
  searchDownAux focusable items (items.length - n) n

/-- The `ArrowUp` loop: walk the index downward from `n` until an entry
satisfies `focusable`; `-1` when the search falls off the front. -/
def searchUp {α : Type} (focusable : α → Bool) (items : List α) : Nat → Int
  | 0 => if (match items[0]? with | some e => focusable e | none => false) then 0 else -1
  | n + 1 =>
    if (match items[n + 1]? with | some e => focusable e | none => false) then
      ((n : Int) + 1)
    else searchUp focusable items n

/-- `ContextMenu.focusFirstItem` (ContextMenu.ts lines 96-103) as its effect on
the focused index: focus the first focusable item; leave the index alone when
there is none. -/
def focusFirstIndex (items : List ChildEntry) (current : Int) : Int :=
  let i := searchDown childFocusable items 0
  if i < (items.length : Int) then i else current

/-! ## Submenu state machine (`ContextMenuSubmenu`, ContextMenuSubmenu.ts)

The child `ContextMenu` is exclusively owned, so its observable state
(its entry list, `visible` class and focused index) is inlined here.
`hasContainer` models `_submenuContainer ≠ null`; the same `render` block that
sets it also attaches the child menu, so it equally models "the child menu's
root node exists". -/

structure SubmenuState where
  hasButton : Bool
  hasContainer : Bool
  disabled : Bool
  hasCtx : Bool
  isPinned : Bool
  hoverTimerPending : Bool
  childItems : List ChildEntry
  childVisible : Bool
  childFocusedIndex : Int
deriving DecidableEq

/-- `ContextMenuSubmenu._openSubmenu` (lines 250-302). The two `show` calls and
the geometric flip are position-only (see `positionInViewport`); the state
effect of `show` on the child menu is: mark visible, reset its focused index
to `-1`. Guards: missing button/container/context or `disabled` refuse, and a
nested submenu among the child entries refuses. -/
def openSubmenu (st : SubmenuState) : SubmenuState :=
  if !st.hasButton || !st.hasContainer || st.disabled || !st.hasCtx then st
  else if st.childItems.any isSubmenuChild then st
  else { st with childVisible := true, childFocusedIndex := -1 }

/-- `ContextMenuSubmenu._closeSubmenu` (lines 304-308): hide the child menu
(`ContextMenu.hide` is a no-op without a root node, otherwise it clears the
visible class and the focused index) and unpin. -/
def closeSubmenu (st : SubmenuState) : SubmenuState :=
  { st with
    childVisible := if st.hasContainer then false else st.childVisible
    childFocusedIndex := if st.hasContainer then -1 else st.childFocusedIndex
    isPinned := false }

/-- `ContextMenuSubmenu.openAndFocusSubmenu` (lines 151-167): `_openSubmenu`,
then pin — unconditionally, whether or not the open was refused — then
`focusFirstItem` on the child menu (the escape-left callback and the CSS
classes it also installs are not part of this state). -/
def openAndFocusSubmenu (st : SubmenuState) : SubmenuState :=
  let s1 := openSubmenu st
  let s2 := { s1 with isPinned := true }
  { s2 with childFocusedIndex := focusFirstIndex s2.childItems s2.childFocusedIndex }

/-- The submenu's unified `click` handler (lines 200-211): toggle — close when
the child menu's root node shows as visible, otherwise `_openSubmenu` and pin
(again unconditionally). The source tests
`submenuEl?.classList.contains("visible")`: the node exists exactly when
`hasContainer`, and the class tracks `childVisible`. -/
def submenuClickHandler (st : SubmenuState) : SubmenuState :=
  if st.hasContainer && st.childVisible then closeSubmenu st
  else { openSubmenu st with isPinned := true }

/-- The `mouseenter` handler: `_scheduleOpen` cancels any pending timer and
arms a fresh one. -/
def submenuMouseenter (st : SubmenuState) : SubmenuState :=
  { st with hoverTimerPending := true }

/-- The show-delay timer firing: its callback is exactly `_openSubmenu`. -/
def hoverShowCallback (st : SubmenuState) : SubmenuState :=
  openSubmenu st

/-- The `mouseleave` handler (lines 187-197): `_cancelOpen`, then — unless
pinned — schedule a delayed close. Returns the new state and whether a close
was scheduled. -/
def submenuMouseleave (st : SubmenuState) : SubmenuState × Bool :=
  let s1 := { st with hoverTimerPending := false }
  if s1.isPinned then (s1, false) else (s1, true)

/-- `ContextMenuSubmenu._isHovering` (lines 310-315). `hoverButton` and
`hoverChild` are the `:hover` state of the button and of the child menu's root
node at the moment the check runs. -/
def isHovering (st : SubmenuState) (hoverButton hoverChild : Bool) : Bool :=
  if !st.hasButton then false
  else if !st.hasContainer then false
  else hoverButton || hoverChild

/-- The hide-delay timer's callback (lines 192-196): re-check the current
state — still not hovered and not pinned — before closing. -/
def hideDelayCallback (st : SubmenuState) (hoverButton hoverChild : Bool) : SubmenuState :=
  if !isHovering st hoverButton hoverChild && !st.isPinned then closeSubmenu st else st

/-! ## Top-level menu (`ContextMenu`, ContextMenu.ts)

A top-level entry is like a child entry, except that a Submenu entry carries
its full `SubmenuState`. `rendered` records that the menu's `show` has run
`render` on every entry (so each ActionItem's `_currentCtx` is set);
`visible` is the `visible` class checked at the top of `_handleKeydown`.
The remaining `_handleKeydown` guard — `document.activeElement` lying inside
the menu — is an environment fact assumed to hold when a handler acts. -/

inductive MenuEntry where
  | actionItem (disabled : Bool) (listensClick : Bool)
  | separator
  | label
  | submenu (sub : SubmenuState)
deriving DecidableEq

/-- Modelled from the spec (see `isFocusableChild`): the missing
`isFocusable` capability check, at the top level. -/
def isFocusableEntry : MenuEntry → Bool
  | .actionItem _ _ => true
  | .submenu _ => true
  | _ => false

/-- The `disabled` flag of a top-level entry. -/
def entryDisabled : MenuEntry → Bool
  | .actionItem d _ => d
  | .submenu s => s.disabled
  | _ => false

/-- `ContextMenu._isFocusable` at the top level. -/
def menuFocusable (e : MenuEntry) : Bool :=
  isFocusableEntry e && !entryDisabled e

structure MenuState where
  items : List MenuEntry
  focusedIndex : Int
  visible : Bool
  rendered : Bool
deriving DecidableEq

/-- `ContextMenu._focusItem` (lines 227-244) as its effect on the focused
index: an in-range index is focused, anything else resets to `-1`. -/
def focusItem (st : MenuState) (index : Int) : MenuState :=
  if 0 ≤ index ∧ index < (st.items.length : Int) then { st with focusedIndex := index }
  else { st with focusedIndex := -1 }

/-- `ContextMenu.hide` (lines 201-225) on an attached menu: drop the visible
class, blur the focused entry and reset the index, and blur every Submenu
entry — `ContextMenuSubmenu.blur` calls `_closeSubmenu`, so open submenus
close (and unpin) cascadingly. -/
def menuHide (st : MenuState) : MenuState :=
  { st with
    visible := false
    focusedIndex := -1
    items := st.items.map fun e =>
      match e with
      | .submenu s => .submenu (closeSubmenu s)
      | e => e }

/-- `_handleKeydown`, `ArrowDown` branch (lines 263-278 and 343-345). The
model keeps the code's `-1`-or-in-range focused-index invariant (every
operation writes only such values). -/
def handleArrowDown (st : MenuState) : MenuState :=
  if !st.visible then st
  else if st.items.length = 0 then st
  else
    let originalIndex := st.focusedIndex
    let start : Int := if st.focusedIndex = -1 then 0 else st.focusedIndex + 1
    let ni := searchDown menuFocusable st.items start.toNat
    let ni := if (st.items.length : Int) ≤ ni then originalIndex else ni
    if ni ≠ st.focusedIndex ∧ ni ≠ originalIndex then focusItem st ni else st

/-- `_handleKeydown`, `ArrowUp` branch (lines 280-295 and 343-345): start at
`focusedIndex - 1`; a search that falls off the front (result `< 0`) restores
the original index. -/
def handleArrowUp (st : MenuState) : MenuState :=
  if !st.visible then st
  else if st.items.length = 0 then st
  else
    let originalIndex := st.focusedIndex
    let start : Int := st.focusedIndex - 1
    let ni := if 0 ≤ start then searchUp menuFocusable st.items start.toNat else start
    let ni := if ni < 0 then originalIndex else ni
    if ni ≠ st.focusedIndex ∧ ni ≠ originalIndex then focusItem st ni else st

/-- Observable consequences of a key press beyond the menu state: activation
events fired by entries and `hide` calls on the menu. -/
inductive MenuEffect where
  | activated (index : Nat)
  | hid
deriving DecidableEq

/-- `_handleKeydown`, `Enter`/`Space` branch (lines 308-324). On a focused
Submenu: `openAndFocusSubmenu`. On a focused ActionItem that `listens("click")`:
`item.click()` — which, when the item is enabled, dispatches a DOM click on its
button, so the item's own listener fires the activation (the context is set
when `rendered`) and the click bubbles to the menu element's listener, which
hides the menu; the branch then calls `this.hide()` itself (idempotent second
hide). A disabled item swallows `click()`, leaving only the branch's own
`hide`. -/
def handleEnterKey (st : MenuState) : MenuState × List MenuEffect :=
  if !st.visible then (st, [])
  else if st.items.length = 0 then (st, [])
  else if st.focusedIndex = -1 then (st, [])
  else
    match st.items[st.focusedIndex.toNat]? with
    | some (.submenu s) =>
      ({ st with items := st.items.set st.focusedIndex.toNat (.submenu (openAndFocusSubmenu s)) },
       [])
    | some (.actionItem d l) =>
      if isFocusableEntry (.actionItem d l) && l then
        if !d then
          (menuHide (menuHide st),
           (if st.rendered then [.activated st.focusedIndex.toNat] else []) ++ [.hid, .hid])
        else (menuHide st, [.hid])
      else (st, [])
    | _ => (st, [])

/-- `_handleKeydown`, `ArrowRight` branch (lines 297-306): only a focused
Submenu reacts, with `openAndFocusSubmenu`. -/
def handleArrowRight (st : MenuState) : MenuState :=
  if !st.visible then st
  else if st.items.length = 0 then st
  else if st.focusedIndex = -1 then st
  else
    match st.items[st.focusedIndex.toNat]? with
    | some (.submenu s) =>
      { st with items := st.items.set st.focusedIndex.toNat (.submenu (openAndFocusSubmenu s)) }
    | _ => st

/-! ## ActionItem activation payload (`ContextMenuItem`, ContextMenuItem.ts)

`_currentCtx` is the `ContextMenuContext` stored by the most recent `render`;
its `event` is the host map's right-click event. World coordinates, pixel
points and features are opaque data, modelled as integers/ids. -/

structure MapEventData where
  point : Int × Int
  lngLat : Int × Int
  features : Option (List Nat)
deriving DecidableEq

structure ItemCtx where
  mapRef : Nat
  event : MapEventData
deriving DecidableEq

/-- The event object built at ContextMenuItem.ts lines 304-312. -/
structure ClickEventPayload where
  eventType : String
  targetId : Nat
  originalEvent : Nat
  point : Int × Int
  lngLat : Int × Int
  features : Option (List Nat)
  mapRef : Nat
deriving DecidableEq

structure ItemState where
  id : Nat
  disabled : Bool
  currentCtx : Option ItemCtx
deriving DecidableEq

/-- `ContextMenuItem.render` (lines 173-186) as its effect on `_currentCtx`. -/
def itemRender (st : ItemState) (c : ItemCtx) : ItemState :=
  { st with currentCtx := some c }

/-- The item's own `click` listener (`_addEventListeners`, lines 296-317):
on a DOM click `ev`, when not disabled and a context is stored, fire exactly
one `"click"` event whose payload copies the context's fields. -/
def itemClickListener (st : ItemState) (ev : Nat) : List ClickEventPayload :=
  if !st.disabled then
    match st.currentCtx with
    | some c => [⟨"click", st.id, ev, c.event.point, c.event.lngLat, c.event.features, c.mapRef⟩]
    | none => []
  else []

/-- What a pointer click on the item's button inside a shown menu observably
does, in DOM dispatch order. -/
inductive DomEffect where
  | fired (p : ClickEventPayload)
  | menuHidden
deriving DecidableEq

/-- DOM dispatch of a click on the item's button: the button's own listener
runs first, then the event bubbles to the menu element, whose `click` listener
(`ContextMenu._setupUI`, lines 364-367) calls `hide()` — once. -/
def dispatchClickOnItem (st : ItemState) (ev : Nat) : List DomEffect :=
  (itemClickListener st ev).map DomEffect.fired ++ [DomEffect.menuHidden]

/-! ## Single-open-menu reference (`MapboxContextMenu`, src/unnamed/part_005)

`attached m` models `_menuEl ≠ null` for menu id `m`; `visible m` the
`visible` class; `openMenu` the static `_openMenu` field. -/

structure MenuSingleton where
  attached : Nat → Bool
  visible : Nat → Bool
  openMenu : Option Nat

/-- `ContextMenu.show` restricted to visibility: a no-op when unattached,
otherwise add the visible class. -/
def contextMenuShow (m : Nat) (s : MenuSingleton) : MenuSingleton :=
  if s.attached m then
    { s with visible := fun k => if k = m then true else s.visible k }
  else s

/-- `ContextMenu.hide` restricted to visibility. -/
def contextMenuHide (m : Nat) (s : MenuSingleton) : MenuSingleton :=
  if s.attached m then
    { s with visible := fun k => if k = m then false else s.visible k }
  else s

/-- `MapboxContextMenu.hide` (part_005 lines 58-63): `super.hide()`, then
release the open-menu reference when this menu holds it. -/
def mapboxHide (m : Nat) (s : MenuSingleton) : MenuSingleton :=
  let s1 := contextMenuHide m s
  if s1.openMenu = some m then { s1 with openMenu := none } else s1

/-- `MapboxContextMenu.show` (part_005 lines 49-56): hide the current holder
of the open-menu reference when it is a different instance, then
`super.show()`, then take the reference. -/
def mapboxShow (m : Nat) (s : MenuSingleton) : MenuSingleton :=
  let s1 :=
    match s.openMenu with
    | some k => if k ≠ m then mapboxHide k s else s
    | none => s
  let s2 := contextMenuShow m s1
  { s2 with openMenu := some m }

/-! ## Concrete states used by witnesses and counterexamples -/

/-- The entry sequence of the focus-traversal scenario:
ActionItem(enabled), Separator, ActionItem(disabled), ActionItem(enabled). -/
def focusTraversalItems : List MenuEntry :=
  [.actionItem false true, .separator, .actionItem true true, .actionItem false true]

/-- A rendered, enabled submenu whose child menu contains a nested submenu. -/
def nestedSubmenuState : SubmenuState :=
  ⟨true, true, false, true, false, false, [.submenu false], false, -1⟩

/-- A rendered, enabled submenu with a single enabled action item inside. -/
def plainSubmenuState : SubmenuState :=
  ⟨true, true, false, true, false, false, [.actionItem false true], false, -1⟩

/-- A pinned, open submenu (opened via click). -/
def pinnedSubmenuState : SubmenuState :=
  ⟨true, true, false, true, true, false, [.actionItem false true], true, 0⟩

/-- A menu showing an enabled action item and a submenu, action item focused. -/
def menuStateItemFocused : MenuState :=
  ⟨[.actionItem false true, .submenu plainSubmenuState], 0, true, true⟩

/-- The same menu with the submenu entry focused. -/
def menuStateSubmenuFocused : MenuState :=
  ⟨[.actionItem false true, .submenu plainSubmenuState], 1, true, true⟩

/-- An `Evented` with two handlers registered for `"click"`. -/
def handlerTable0 : Evented :=
  ⟨fun _ => [1, 2]⟩

/-- A world with every menu attached and none visible or open. -/
def allAttached : MenuSingleton :=
  ⟨fun _ => true, fun _ => false, none⟩

/-! ## Helper lemmas -/

theorem jsIndexOf_of_not_mem {α : Type} [DecidableEq α] {l : List α} {e : α}
    (h : e ∉ l) : jsIndexOf l e = -1 := by
  induction l with
  | nil => rfl
  | cons a l ih =>
    have ha : ¬a = e := fun hc => h (hc ▸ List.mem_cons_self a l)
    have hl : e ∉ l := fun hc => h (List.mem_cons_of_mem a hc)
    simp [jsIndexOf, ha, ih hl]

theorem jsIndexOf_append_cons {α : Type} [DecidableEq α] (l1 l2 : List α) (e : α)
    (h : e ∉ l1) : jsIndexOf (l1 ++ e :: l2) e = (l1.length : Int) := by
  induction l1 with
  | nil => simp [jsIndexOf]
  | cons a l1 ih =>
    have ha : ¬a = e := fun hc => h (hc ▸ List.mem_cons_self a l1)
    have hl : e ∉ l1 := fun hc => h (List.mem_cons_of_mem a hc)
    have hr := ih hl
    simp only [List.cons_append, jsIndexOf, if_neg ha]
    rw [List.append_eq, hr]
    have : ¬((l1.length : Int) = -1) := by omega
    simp [this]

theorem jsRemoveAt_append_cons {α : Type} (l1 l2 : List α) (e : α) :
    jsRemoveAt (l1 ++ e :: l2) l1.length = l1 ++ l2 := by
  induction l1 with
  | nil => rfl
  | cons a l1 ih => simpa [jsRemoveAt] using ih

theorem jsRemoveAt_sublist {α : Type} (l : List α) (n : Nat) :
    (jsRemoveAt l n).Sublist l := by
  induction l generalizing n with
  | nil => simp [jsRemoveAt]
  | cons a l ih =>
    cases n with
    | zero => exact (List.sublist_cons_self a l)
    | succ n => exact (ih n).cons₂ a

theorem removeItem_of_not_mem {α : Type} [DecidableEq α] {l : List α} {e : α}
    (h : e ∉ l) : removeItem l e = l := by
  simp [removeItem, jsIndexOf_of_not_mem h]

theorem removeItem_first {α : Type} [DecidableEq α] (l1 l2 : List α) (e : α)
    (h : e ∉ l1) : removeItem (l1 ++ e :: l2) e = l1 ++ l2 := by
  have hi := jsIndexOf_append_cons l1 l2 e h
  have hne : ¬((l1.length : Int) = -1) := by omega
  simp [removeItem, hi, hne, jsRemoveAt_append_cons]

theorem removeItem_sublist {α : Type} [DecidableEq α] (l : List α) (e : α) :
    (removeItem l e).Sublist l := by
  by_cases h : jsIndexOf l e = -1
  · simp [removeItem, h]
  · simp only [removeItem, ne_eq, h, not_false_eq_true, if_true]
    exact jsRemoveAt_sublist l _

theorem applyOps_sublist_aux {α : Type} [DecidableEq α] (ops : List (MenuOp α)) :
    ∀ l adds : List α, l.Sublist adds → (applyOps ops l).Sublist (adds ++ addsOf ops) := by
  induction ops with
  | nil => intro l adds h; simpa [applyOps, addsOf] using h
  | cons op ops ih =>
    intro l adds h
    cases op with
    | add e =>
      have h1 : (addItem l e).Sublist (adds ++ [e]) := h.append (List.Sublist.refl [e])
      have h2 := ih (addItem l e) (adds ++ [e]) h1
      simpa [applyOps, addsOf, List.append_assoc] using h2
    | rem e =>
      have h1 : (removeItem l e).Sublist adds := (removeItem_sublist l e).trans h
      simpa [applyOps, addsOf] using ih (removeItem l e) adds h1

theorem jsInsertAt_of_length_le {α : Type} (l : List α) (n : Nat) (e : α)
    (h : l.length ≤ n) : jsInsertAt l n e = l ++ [e] := by
  induction l generalizing n with
  | nil => cases n <;> rfl
  | cons a l ih =>
    cases n with
    | zero => simp at h
    | succ n => simpa [jsInsertAt] using ih n (by simpa using h)

/-! ## Claim theorems -/

/-- C8: for every sequence of `addItem`/`removeItem` calls on a Menu, the
resulting entry list is the insertion order with the removed entries deleted —
an order-preserving subsequence of the added entries (no duplication when the
added entries are distinct, no reordering); `removeItem` removes only the
first matching reference, and is a no-op when the entry is not present. -/
theorem claim_C8 {α : Type} [DecidableEq α] :
    (∀ ops : List (MenuOp α), (applyOps ops []).Sublist (addsOf ops)) ∧
    (∀ ops : List (MenuOp α), (addsOf ops).Nodup → (applyOps ops []).Nodup) ∧
    (∀ (l : List α) (e : α), e ∉ l → removeItem l e = l) ∧
    (∀ (l1 l2 : List α) (e : α), e ∉ l1 → removeItem (l1 ++ e :: l2) e = l1 ++ l2) := by
  have hsub : ∀ ops : List (MenuOp α), (applyOps ops []).Sublist (addsOf ops) := by
    intro ops
    simpa using applyOps_sublist_aux ops [] [] (List.Sublist.refl [])
  refine ⟨hsub, fun ops hnd => hnd.sublist (hsub ops), fun l e h => removeItem_of_not_mem h,
    fun l1 l2 e h => removeItem_first l1 l2 e h⟩

/-- C8 witness: a concrete run — add 1, add 2, add 1 again, remove 1 — ends
with `[2, 1]`, a subsequence of the adds `[1, 2, 1]`; removing an absent entry
is a no-op; removal hits only the first occurrence. -/
theorem claim_C8_witness :
    (applyOps [.add 1, .add 2, .add 1, .rem 1] []).Sublist (addsOf ([.add 1, .add 2, .add 1, .rem 1] : List (MenuOp Nat))) ∧
    removeItem [1, 2] 3 = [1, 2] ∧
    removeItem ([1] ++ 2 :: [4, 2]) 2 = [1] ++ [4, 2] :=
  ⟨(claim_C8 (α := Nat)).1 _, (claim_C8 (α := Nat)).2.2.1 [1, 2] 3 (by decide),
    (claim_C8 (α := Nat)).2.2.2 [1] [4, 2] 2 (by decide)⟩

/-- C9 counterexample: `-3` is out of range for a two-entry list, yet
`insertItem` does not append: JS `splice` clamps a negative start to the
front, so the entry ends up first, not last. -/
theorem claim_C9_counterexample :
    ((-3 : Int) < 0 ∨ (2 : Int) < -3) ∧
    insertItem [1, 2] (-3) 9 = [9, 1, 2] ∧
    insertItem [1, 2] (-3) 9 ≠ addItem [1, 2] 9 := by decide

/-- C9 amended: `insertItem` behaves as an append, preserving the relative
order of the present entries, for every index at or beyond the length
(the claim's behaviour holds for non-negative out-of-range indices); a
negative index at or below minus the length instead prepends. -/
theorem claim_C9 {α : Type} (items : List α) (index : Int) (e : α) :
    ((items.length : Int) ≤ index → insertItem items index e = items ++ [e]) ∧
    (index ≤ -(items.length : Int) → insertItem items index e = e :: items) := by
  constructor
  · intro hle
    have hs : spliceStart items.length index = items.length := by
      simp only [spliceStart]
      split_ifs <;> omega
    rw [insertItem, hs, jsInsertAt_of_length_le items items.length e (Nat.le_refl _)]
  · intro hle
    have hs : spliceStart items.length index = 0 := by
      simp only [spliceStart]
      split_ifs <;> omega
    rw [insertItem, hs]
    cases items <;> rfl

/-- C9 witness: inserting at index 7 into a two-entry list appends, and
inserting at index −7 prepends. -/
theorem claim_C9_witness :
    insertItem [1, 2] 7 9 = [1, 2] ++ [9] ∧ insertItem [1, 2] (-7) 9 = 9 :: [1, 2] :=
  ⟨(claim_C9 [1, 2] 7 9).1 (by decide), (claim_C9 [1, 2] (-7) 9).2 (by decide)⟩

/-- C10: `fire` invokes exactly the handlers registered for the type at the
moment `fire` was called — the snapshot `handlers.slice()` — in registration
order (`on` appends), each registration exactly once, no matter how the
handlers mutate the handler table while running; `off` for an unregistered
handler is a no-op. -/
theorem claim_C10 :
    (∀ (st : Evented) (interp : Nat → Evented → Evented) (type : String),
      (eventedFire st interp type).2 = st.eventHandlers type) ∧
    (∀ (st : Evented) (interp interp2 : Nat → Evented → Evented) (type : String),
      (eventedFire st interp type).2 = (eventedFire st interp2 type).2) ∧
    (∀ (st : Evented) (interp : Nat → Evented → Evented) (type : String) (h : Nat),
      ((eventedFire st interp type).2.count h) = (st.eventHandlers type).count h) ∧
    (∀ (st : Evented) (type : String) (h : Nat),
      (eventedOn st type h).eventHandlers type = st.eventHandlers type ++ [h]) ∧
    (∀ (st : Evented) (type : String) (h : Nat),
      h ∉ st.eventHandlers type → eventedOff st type h = st) := by
  refine ⟨fun _ _ _ => rfl, fun _ _ _ _ => rfl, fun _ _ _ _ => rfl, fun st type h => by
    simp [eventedOn], fun st type h hm => ?_⟩
  simp [eventedOff, jsIndexOf_of_not_mem hm]

/-- C10 witness: removing the unregistered handler 3 leaves the table with
handlers [1, 2] for `"click"` unchanged. -/
theorem claim_C10_witness : eventedOff handlerTable0 "click" 3 = handlerTable0 :=
  claim_C10.2.2.2.2 handlerTable0 "click" 3 (by decide)

/-- C2 counterexample: with container (100, 100) and popup (10, 10) — so
w < W and h < H — the anchor (−1, 5) satisfies x+w ≤ W and y+h ≤ H, yet the
positioner does not return it unchanged: the leading-edge clamp moves the
negative coordinate to 0. -/
theorem claim_C2_counterexample :
    (10 : Int) < 100 ∧ (10 : Int) < 100 ∧ (-1 : Int) + 10 ≤ 100 ∧ (5 : Int) + 10 ≤ 100 ∧
    positionInViewport 100 100 10 10 (-1) 5 ≠ (-1, 5) := by decide

/-- C2 amended: the positioner returns (x, y) unchanged when additionally
0 ≤ x and 0 ≤ y (the counterexample shows a negative anchor is clamped);
when w < W and x+w > W the returned left is W−w (symmetrically for top);
the result is never negative in either axis; and since the trailing-edge
correction precedes the clamp to 0, a popup larger than the container is
placed at (0, 0). -/
theorem claim_C2 (W H w h x y : Int) :
    (0 ≤ x → 0 ≤ y → x + w ≤ W → y + h ≤ H → positionInViewport W H w h x y = (x, y)) ∧
    (w < W → W < x + w → (positionInViewport W H w h x y).1 = W - w) ∧
    (h < H → H < y + h → (positionInViewport W H w h x y).2 = H - h) ∧
    (0 ≤ (positionInViewport W H w h x y).1 ∧ 0 ≤ (positionInViewport W H w h x y).2) ∧
    (W < w → H < h → positionInViewport W H w h x y = (0, 0)) := by
  refine ⟨fun hx hy hxw hyh => ?_, fun hwW hover => ?_, fun hhH hover => ?_, ⟨?_, ?_⟩,
    fun hW hH => ?_⟩ <;>
    simp only [positionInViewport, Prod.mk.injEq] <;>
    split_ifs <;> first | (constructor <;> omega) | omega

/-- C2 witness: an anchor (5, 6) that fits is returned unchanged. -/
theorem claim_C2_witness : positionInViewport 100 100 10 10 5 6 = (5, 6) :=
  (claim_C2 100 100 10 10 5 6).1 (by decide) (by decide) (by decide) (by decide)

/-- C3: on the entry list [ActionItem(enabled), Separator,
ActionItem(disabled), ActionItem(enabled)] of a visible menu, ArrowDown from
focus index −1 focuses index 0; ArrowDown from 0 focuses index 3, skipping the
separator at 1 and the disabled item at 2; a further ArrowDown leaves the
focus at 3 (no wrap); and ArrowUp from index 0 — a search that falls off the
front — restores the prior index 0. -/
theorem claim_C3 :
    (handleArrowDown ⟨focusTraversalItems, -1, true, true⟩).focusedIndex = 0 ∧
    (handleArrowDown ⟨focusTraversalItems, 0, true, true⟩).focusedIndex = 3 ∧
    (handleArrowDown ⟨focusTraversalItems, 3, true, true⟩).focusedIndex = 3 ∧
    (handleArrowUp ⟨focusTraversalItems, 0, true, true⟩).focusedIndex = 0 := by decide

/-- C4 counterexample: a submenu whose child menu contains a nested submenu,
clicked while closed, does change state — the claim says no state of the
submenu changes and the pinned flag stays false, but the click handler pins
unconditionally after `_openSubmenu` refuses. -/
theorem claim_C4_counterexample :
    nestedSubmenuState.childItems.any isSubmenuChild = true ∧
    nestedSubmenuState.isPinned = false ∧
    (submenuClickHandler nestedSubmenuState).isPinned = true ∧
    (openAndFocusSubmenu nestedSubmenuState).isPinned = true := by decide

/-- C4 amended: for every Submenu whose own child entries include another
Submenu, every open attempt is refused in the sense that the child menu is
not shown (the submenu stays Closed): the hover-timer path changes no state
at all, but the click path still sets the pinned flag, and the keyboard
`openAndFocusSubmenu` path sets the pinned flag and moves the child menu's
focus index to its first focusable entry. -/
theorem claim_C4 (st : SubmenuState)
    (hn : st.childItems.any isSubmenuChild = true) (hv : st.childVisible = false) :
    openSubmenu st = st ∧
    hoverShowCallback st = st ∧
    submenuClickHandler st = { st with isPinned := true } ∧
    openAndFocusSubmenu st =
      { st with isPinned := true,
                childFocusedIndex := focusFirstIndex st.childItems st.childFocusedIndex } ∧
    (submenuClickHandler st).childVisible = false ∧
    (openAndFocusSubmenu st).childVisible = false := by
  have ho : openSubmenu st = st := by
    simp [openSubmenu, hn]
  have hclick : submenuClickHandler st = { st with isPinned := true } := by
    simp [submenuClickHandler, hv, ho]
  have hkey : openAndFocusSubmenu st =
      { st with isPinned := true,
                childFocusedIndex := focusFirstIndex st.childItems st.childFocusedIndex } := by
    simp [openAndFocusSubmenu, ho]
  refine ⟨ho, ho, hclick, hkey, ?_, ?_⟩
  · rw [hclick]; exact hv
  · rw [hkey]; exact hv

/-- C4 witness: the concrete nested-submenu state — the hover-timer open is a
complete no-op, and neither the click nor the keyboard path shows the child
menu. -/
theorem claim_C4_witness :
    openSubmenu nestedSubmenuState = nestedSubmenuState ∧
    (submenuClickHandler nestedSubmenuState).childVisible = false ∧
    (openAndFocusSubmenu nestedSubmenuState).childVisible = false :=
  ⟨(claim_C4 nestedSubmenuState (by decide) (by decide)).1,
    (claim_C4 nestedSubmenuState (by decide) (by decide)).2.2.2.2.1,
    (claim_C4 nestedSubmenuState (by decide) (by decide)).2.2.2.2.2⟩

/-- C7: the hide-delay timer's callback re-checks the current state when it
fires: if the pointer is over the submenu's button or its child menu's node,
or the submenu has been pinned, the callback changes nothing — the submenu
stays exactly as it was (in particular an open child menu stays open), so a
stale timer firing after hover re-entry or pinning has no effect. Moreover a
pinned submenu never even schedules the close on `mouseleave`. -/
theorem claim_C7 (st : SubmenuState) (hoverButton hoverChild : Bool)
    (hb : st.hasButton = true) (hc : st.hasContainer = true)
    (h : (hoverButton || hoverChild || st.isPinned) = true) :
    hideDelayCallback st hoverButton hoverChild = st ∧
    (hideDelayCallback st hoverButton hoverChild).childVisible = st.childVisible ∧
    (st.isPinned = true → (submenuMouseleave st).2 = false) := by
  have he : hideDelayCallback st hoverButton hoverChild = st := by
    cases hhb : hoverButton <;> cases hhc : hoverChild <;>
      simp_all [hideDelayCallback, isHovering]
  refine ⟨he, by rw [he], fun hp => ?_⟩
  simp [submenuMouseleave, hp]

/-- C7 witness: a pinned open submenu survives its stale hide-delay timer
(fired with the pointer over neither node), and does not schedule a close on
`mouseleave`. -/
theorem claim_C7_witness :
    hideDelayCallback pinnedSubmenuState false false = pinnedSubmenuState ∧
    (submenuMouseleave pinnedSubmenuState).2 = false :=
  ⟨(claim_C7 pinnedSubmenuState false false rfl rfl (by decide)).1,
    (claim_C7 pinnedSubmenuState false false rfl rfl (by decide)).2.2 (by decide)⟩

/-- C5: clicking the button of an enabled ActionItem fires exactly one
activation event, whose payload carries exactly the fields captured at the
most recent render — the original low-level event, the pixel point, the
world-coordinate pair, the optional hit-feature list and the host map
reference, all from the latest context `c2`, not the stale `c1` — and the
bubbling click then hides the top-level menu exactly once, after the item's
own handler. -/
theorem claim_C5 (st : ItemState) (c1 c2 : ItemCtx) (ev : Nat)
    (hd : st.disabled = false) :
    dispatchClickOnItem (itemRender (itemRender st c1) c2) ev =
      [DomEffect.fired ⟨"click", st.id, ev, c2.event.point, c2.event.lngLat,
        c2.event.features, c2.mapRef⟩, DomEffect.menuHidden] := by
  simp [dispatchClickOnItem, itemClickListener, itemRender, hd]

/-- C5 witness: a concrete enabled item rendered twice fires one payload
built from the second context, then one hide. -/
theorem claim_C5_witness :
    dispatchClickOnItem
        (itemRender (itemRender ⟨7, false, none⟩ ⟨1, ⟨(1, 1), (2, 2), none⟩⟩)
          ⟨4, ⟨(10, 20), (30, 40), some [5]⟩⟩) 9 =
      [DomEffect.fired ⟨"click", 7, 9, (10, 20), (30, 40), some [5], 4⟩,
        DomEffect.menuHidden] :=
  claim_C5 ⟨7, false, none⟩ ⟨1, ⟨(1, 1), (2, 2), none⟩⟩ ⟨4, ⟨(10, 20), (30, 40), some [5]⟩⟩ 9 rfl

/-- C6: in a visible, rendered menu, Enter/Space on a focused enabled
ActionItem with a registered activation listener fires its activation and then
hides the whole menu (the bubbled click hides it, and the branch's own `hide`
is an idempotent repeat); Enter, Space, or ArrowRight on a focused Submenu
performs `openAndFocusSubmenu` — firing no activation, hiding nothing (the
menu stays visible) — which, for an openable submenu, shows the child menu
pinned with its first focusable child focused. -/
theorem claim_C6 (st : MenuState) (fi : Nat) (s : SubmenuState)
    (hv : st.visible = true) (hr : st.rendered = true)
    (hf : st.focusedIndex = (fi : Int)) :
    (st.items[fi]? = some (.actionItem false true) →
      handleEnterKey st = (menuHide (menuHide st), [.activated fi, .hid, .hid]) ∧
      (menuHide (menuHide st)).visible = false) ∧
    (st.items[fi]? = some (.submenu s) →
      handleArrowRight st =
        { st with items := st.items.set fi (.submenu (openAndFocusSubmenu s)) } ∧
      handleEnterKey st = (handleArrowRight st, []) ∧
      (handleArrowRight st).visible = true ∧
      (s.hasButton = true → s.hasContainer = true → s.disabled = false →
        s.hasCtx = true → s.childItems.any isSubmenuChild = false →
        (openAndFocusSubmenu s).childVisible = true ∧
        (openAndFocusSubmenu s).isPinned = true ∧
        (openAndFocusSubmenu s).childFocusedIndex = focusFirstIndex s.childItems (-1))) := by
  constructor
  · intro h
    have hlt : fi < st.items.length := by
      by_contra hge
      rw [List.getElem?_eq_none (by omega)] at h
      cases h
    have hlen : ¬st.items.length = 0 := by omega
    have hfne : ¬st.focusedIndex = -1 := by omega
    refine ⟨?_, rfl⟩
    simp [handleEnterKey, hv, hr, hf, hlen, hfne, h, isFocusableEntry]
  · intro h
    have hlt : fi < st.items.length := by
      by_contra hge
      rw [List.getElem?_eq_none (by omega)] at h
      cases h
    have hlen : ¬st.items.length = 0 := by omega
    have hfne : ¬st.focusedIndex = -1 := by omega
    have hright : handleArrowRight st =
        { st with items := st.items.set fi (.submenu (openAndFocusSubmenu s)) } := by
      simp [handleArrowRight, hv, hf, hlen, hfne, h]
    refine ⟨hright, ?_, by rw [hright]; exact hv, fun hb hc hd hx hnest => ?_⟩
    · rw [hright]
      simp [handleEnterKey, hv, hf, hlen, hfne, h]
    · simp [openAndFocusSubmenu, openSubmenu, focusFirstIndex, hb, hc, hd, hx, hnest]

/-- C6 witness: on a concrete menu with [enabled ActionItem, Submenu], Enter
with the action item focused activates then hides, and Enter with the submenu
focused opens the pinned child with its first child focused and fires
nothing. -/
theorem claim_C6_witness :
    handleEnterKey menuStateItemFocused =
      (menuHide (menuHide menuStateItemFocused), [.activated 0, .hid, .hid]) ∧
    handleEnterKey menuStateSubmenuFocused = (handleArrowRight menuStateSubmenuFocused, []) ∧
    (openAndFocusSubmenu plainSubmenuState).childVisible = true :=
  ⟨((claim_C6 menuStateItemFocused 0 plainSubmenuState rfl rfl rfl).1 (by decide)).1,
    ((claim_C6 menuStateSubmenuFocused 1 plainSubmenuState rfl rfl rfl).2 (by decide)).2.1,
    (((claim_C6 menuStateSubmenuFocused 1 plainSubmenuState rfl rfl rfl).2
      (by decide)).2.2.2 rfl rfl rfl rfl (by decide)).1⟩

theorem attached_contextMenuShow (m : Nat) (s : MenuSingleton) :
    (contextMenuShow m s).attached = s.attached := by
  unfold contextMenuShow
  split_ifs <;> rfl

theorem attached_contextMenuHide (m : Nat) (s : MenuSingleton) :
    (contextMenuHide m s).attached = s.attached := by
  unfold contextMenuHide
  split_ifs <;> rfl

theorem attached_mapboxHide (m : Nat) (s : MenuSingleton) :
    (mapboxHide m s).attached = s.attached := by
  by_cases h : (contextMenuHide m s).openMenu = some m <;>
    simp [mapboxHide, h, attached_contextMenuHide]

theorem openMenu_mapboxShow (m : Nat) (s : MenuSingleton) :
    (mapboxShow m s).openMenu = some m := rfl

theorem attached_mapboxShow (m : Nat) (s : MenuSingleton) :
    (mapboxShow m s).attached = s.attached := by
  rcases hso : s.openMenu with _ | k
  · simp [mapboxShow, hso, attached_contextMenuShow]
  · by_cases hk : k ≠ m <;>
      simp [mapboxShow, hso, hk, attached_contextMenuShow, attached_mapboxHide]

theorem mapboxShow_some_ne {s : MenuSingleton} {k m : Nat} (h : s.openMenu = some k)
    (hk : k ≠ m) :
    mapboxShow m s = { contextMenuShow m (mapboxHide k s) with openMenu := some m } := by
  simp [mapboxShow, h, hk]

theorem visible_contextMenuShow_self {s : MenuSingleton} {m : Nat}
    (h : s.attached m = true) : (contextMenuShow m s).visible m = true := by
  simp [contextMenuShow, h]

theorem visible_contextMenuShow_ne {s : MenuSingleton} {m k : Nat} (h : k ≠ m) :
    (contextMenuShow m s).visible k = s.visible k := by
  unfold contextMenuShow
  split_ifs <;> simp [h]

theorem visible_contextMenuHide_self {s : MenuSingleton} {m : Nat}
    (h : s.attached m = true) : (contextMenuHide m s).visible m = false := by
  simp [contextMenuHide, h]

theorem visible_mapboxHide (m : Nat) (s : MenuSingleton) :
    (mapboxHide m s).visible = (contextMenuHide m s).visible := by
  by_cases h : (contextMenuHide m s).openMenu = some m <;> simp [mapboxHide, h]

/-- C1: for two distinct attached menus, `A.show(...)` then `B.show(...)`
leaves A not visible and B visible, and the process-wide open-menu reference
on B: `show` hides the previous holder — a different instance — before
marking itself visible and taking the reference, so the second `show`
un-shows the first menu. -/
theorem claim_C1 (s : MenuSingleton) (a b : Nat) (hab : a ≠ b)
    (ha : s.attached a = true) (hb : s.attached b = true) :
    (mapboxShow b (mapboxShow a s)).visible a = false ∧
    (mapboxShow b (mapboxShow a s)).visible b = true ∧
    (mapboxShow b (mapboxShow a s)).openMenu = some b := by
  have h1a : (mapboxShow a s).attached = s.attached := attached_mapboxShow a s
  have e2 : mapboxShow b (mapboxShow a s) =
      { contextMenuShow b (mapboxHide a (mapboxShow a s)) with openMenu := some b } :=
    mapboxShow_some_ne (openMenu_mapboxShow a s) hab
  rw [e2]
  refine ⟨?_, ?_, rfl⟩
  · show (contextMenuShow b (mapboxHide a (mapboxShow a s))).visible a = false
    rw [visible_contextMenuShow_ne hab, visible_mapboxHide]
    exact visible_contextMenuHide_self (by rw [h1a]; exact ha)
  · show (contextMenuShow b (mapboxHide a (mapboxShow a s))).visible b = true
    refine visible_contextMenuShow_self ?_
    rw [attached_mapboxHide, h1a]
    exact hb

/-- C1 witness: with every menu attached and none open, showing menu 0 and
then menu 1 leaves menu 0 hidden and menu 1 visible and holding the open-menu
reference. -/
theorem claim_C1_witness :
    (mapboxShow 1 (mapboxShow 0 allAttached)).visible 0 = false ∧
    (mapboxShow 1 (mapboxShow 0 allAttached)).visible 1 = true ∧
    (mapboxShow 1 (mapboxShow 0 allAttached)).openMenu = some 1 :=
  claim_C1 allAttached 0 1 (by decide) rfl rfl

end ContextMenuSpec
